import Mathlib

/-!
Shallow embedding of the invitation-app core (event bus, router,
configuration merge/lookup, storage service) and proofs about it.

Values flowing through the configuration layer are JSON/YAML-shaped data,
modelled by `JValue`.  JavaScript objects are modelled as association lists
from string keys to values (own enumerable properties, in insertion order),
which is exactly the shape YAML parsing produces.
-/

set_option linter.unusedVariables false

/-- Model of a JavaScript/JSON/YAML value as it occurs in this app: null,
booleans, numbers (the app only ever uses integral numbers: timestamps,
counts), strings, arrays, and plain objects (association lists in property
insertion order). -/
inductive JValue : Type where
  | vNull : JValue
  | vBool : Bool → JValue
  | vNum : Int → JValue
  | vStr : String → JValue
  | vArr : List JValue → JValue
  | vObj : List (String × JValue) → JValue

namespace JValue

/-- Test for the JS comparison `x === null || x === undefined` (the
configuration layer never materialises `undefined`, null stands for both). -/
def isNull : JValue → Bool
  | vNull => true
  | _ => false

/-- Property read on an object: first binding for the key (JS object keys are
unique, so the first binding is the binding). Models `obj[key]` /
`key in obj` returning `none` when the own property is absent. -/
def lookupAssoc {α : Type} : List (String × α) → String → Option α
  | [], _ => none
  | (k, v) :: rest, key => if k = key then some v else lookupAssoc rest key

/-- Property write `obj[key] = v`: updates the first binding for the key in
place (JS keeps the original insertion position), or appends a new binding at
the end when the key is absent. -/
def setAssoc {α : Type} : List (String × α) → String → α → List (String × α)
  | [], key, v => [(key, v)]
  | (k, w) :: rest, key, v =>
      if k = key then (k, v) :: rest else (k, w) :: setAssoc rest key v

mutual

/-- Embedding of `YamlConfigService._deepMerge(target, source)`:
starts from a copy of `target` and walks the own keys of `source` in order,
assigning to each key the value computed by `mergeStep` (the if/else in the
loop body). -/
def deepMerge : List (String × JValue) → List (String × JValue) → List (String × JValue)
  | target, [] => target
  | target, (key, sv) :: rest =>
      deepMerge (setAssoc target key (mergeStep target key sv)) rest

/-- The if/else in the body of `_deepMerge`: when both the source value and
the current result value at `key` are truthy non-array objects the merge
recurses, otherwise the source value wins outright.  (`null` has typeof
object in JS but is falsy, so it takes the overwrite branch, exactly as in
the code; arrays are excluded explicitly by the code's `Array.isArray`.) -/
def mergeStep (target : List (String × JValue)) (key : String) : JValue → JValue
  | JValue.vObj sf =>
      match lookupAssoc target key with
      | some (JValue.vObj tf) => JValue.vObj (deepMerge tf sf)
      | _ => JValue.vObj sf
  | sv => sv

end

end JValue

open JValue

/-! String helpers, written over character lists so that all of them reduce
by plain structural recursion (the kernel can evaluate them in witnesses).
They embed the JS string operations the configuration service uses:
`includes`, `toLowerCase`, `split('.')`, `startsWith`. -/

/-- Test whether the pattern (second argument) occurs at the head of the
first argument. -/
def chStart : List Char → List Char → Bool
  | _, [] => true
  | [], _ :: _ => false
  | c :: cs, p :: ps => c = p && chStart cs ps

/-- Test whether the pattern (second argument) occurs anywhere inside the
first argument, the way JS `includes` does. -/
def chSub : List Char → List Char → Bool
  | [], pat => pat.isEmpty
  | c :: cs, pat => chStart (c :: cs) pat || chSub cs pat

/-- Embedding of `s.includes(pat)`. -/
def strContains (s pat : String) : Bool := chSub s.toList pat.toList

/-- Embedding of `s.startsWith(h)`. -/
def strStarts (s h : String) : Bool := chStart s.toList h.toList

/-- Embedding of `s.toLowerCase()` (ASCII case mapping; the configuration
paths this app passes through it are plain ASCII). -/
def lowerStr (s : String) : String := String.mk (s.toList.map Char.toLower)

/-- Accumulator for `splitDots`. -/
def splitDotsAux : List Char → List Char → List String
  | [], acc => [String.mk acc.reverse]
  | c :: cs, acc =>
      if c = '.' then String.mk acc.reverse :: splitDotsAux cs []
      else splitDotsAux cs (c :: acc)

/-- Embedding of `path.split('.')` (JS semantics for a one-character string
separator: an empty input yields one empty key, adjacent dots yield empty
keys). -/
def splitDots (s : String) : List String := splitDotsAux s.toList []

/-- Numeric value of an ASCII digit character. -/
def chDigitVal (c : Char) : Option Nat :=
  if '0' ≤ c ∧ c ≤ '9' then some (c.toNat - 48) else none

/-- Accumulating decimal parse of a digit string. -/
def chNumAux : List Char → Nat → Option Nat
  | [], acc => some acc
  | c :: cs, acc =>
      match chDigitVal c with
      | some d => chNumAux cs (acc * 10 + d)
      | none => none

/-- Canonical array-index reading of a string, the JS rule deciding whether
`key in someArray` hits an element: all digits with no superfluous leading
zero ("0" yes, "01" no, "+1" no). -/
def natCanon (k : String) : Option Nat :=
  match k.toList with
  | [] => none
  | c :: cs =>
      if c = '0' ∧ cs ≠ [] then none
      else
        match chDigitVal c with
        | some d => chNumAux cs d
        | none => none

/-! Configuration lookup: `YamlConfigService.get` and
`_getGracefulFallback`. -/

/-- Embedding of one step of the lookup walk, the JS test `current && typeof
current === 'object' && key in current` followed by the read
`current[key]`.  Own properties only: objects expose their bindings, arrays
expose canonical indices and `length`; null is falsy and primitives fail the
typeof test. -/
def keyAccess : JValue → String → Option JValue
  | JValue.vObj fields, k => lookupAssoc fields k
  | JValue.vArr xs, k =>
      if k = "length" then some (JValue.vNum (Int.ofNat xs.length))
      else
        match natCanon k with
        | some i => xs[i]?
        | none => none
  | _, _ => none

/-- The for-loop of `get`: walk the split path, failing as soon as a step
misses. -/
def walkPath : JValue → List String → Option JValue
  | v, [] => some v
  | v, k :: rest =>
      match keyAccess v k with
      | some w => walkPath w rest
      | none => none

/-- Embedding of `_getGracefulFallback(path, fallback)`: an explicit
non-null fallback wins; otherwise the first matching keyword of the
lowercased path picks a placeholder, with a generic placeholder as the last
resort. -/
def gracefulFallback (path : String) (fallback : JValue) : JValue :=
  if isNull fallback = false then fallback
  else if strContains (lowerStr path) "title" then JValue.vStr "Event Title - Please Update Config"
  else if strContains (lowerStr path) "subtitle" then JValue.vStr "Please update your event details in config.yaml"
  else if strContains (lowerStr path) "date" then JValue.vStr "Date TBD - Please Update Config"
  else if strContains (lowerStr path) "location" then JValue.vStr "Location TBD - Please Update Config"
  else if strContains (lowerStr path) "name" then JValue.vStr "Name TBD"
  else if strContains (lowerStr path) "email" then JValue.vStr "email@example.com"
  else if strContains (lowerStr path) "phone" then JValue.vStr "+1 (555) 000-0000"
  else if strContains (lowerStr path) "dresscode" then JValue.vStr "Dress code TBD"
  else if strContains (lowerStr path) "dining" then JValue.vStr "Dining details TBD"
  else if strContains (lowerStr path) "heroimage" then JValue.vStr "placeholder-hero.svg"
  else JValue.vStr "Please update config.yaml"

/-- Embedding of `YamlConfigService.get(path, fallback)`.  Here `config =
none` models an unloaded service (`this.config === null`); a null leaf at
the end of the walk also falls back. -/
def getCfg (config : Option JValue) (path : String) (fallback : JValue) : JValue :=
  match config with
  | none => gracefulFallback path fallback
  | some cfg =>
      match walkPath cfg (splitDots path) with
      | none => gracefulFallback path fallback
      | some v => if isNull v then gracefulFallback path fallback else v

/-- Raw result of the path walk, before any fallback substitution. -/
def rawGet (config : Option JValue) (path : String) : Option JValue :=
  config.bind fun cfg => walkPath cfg (splitDots path)

/-- A lookup "misses" when the walk fails (unloaded configuration, absent
key, or non-object intermediate) or lands on a null leaf; these are exactly
the situations in which `get` substitutes a fallback. -/
def missGet (config : Option JValue) (path : String) : Prop :=
  rawGet config path = none ∨ rawGet config path = some JValue.vNull

/-- The `event` sub-object of `InvitationApp.getDefaultConfig()`. -/
def defaultEventFields : List (String × JValue) :=
  [ ("title", JValue.vStr "Event Title - Please Update Config")
  , ("subtitle", JValue.vStr "Please update your event details in config.yaml")
  , ("date", JValue.vStr "Date TBD - Please Update Config")
  , ("location", JValue.vStr "Location TBD - Please Update Config")
  , ("dresscode", JValue.vStr "Dress code TBD")
  , ("dining", JValue.vStr "Dining details TBD")
  , ("heroImage", JValue.vStr "placeholder-hero.svg")
  , ("organizer", JValue.vObj
      [ ("name", JValue.vStr "Organizer Name TBD")
      , ("email", JValue.vStr "email@example.com")
      , ("phone", JValue.vStr "+1 (555) 000-0000") ]) ]

/-- Embedding of `InvitationApp.getDefaultConfig()`, the hard-coded defaults
object the user configuration is deep-merged over. -/
def defaultConfig : List (String × JValue) :=
  [ ("app", JValue.vObj
      [ ("name", JValue.vStr "Event Invitation")
      , ("version", JValue.vStr "1.0.0")
      , ("theme", JValue.vStr "default") ])
  , ("event", JValue.vObj defaultEventFields)
  , ("features", JValue.vObj
      [ ("gallery", JValue.vBool true)
      , ("rsvp", JValue.vBool true)
      , ("contact", JValue.vBool true)
      , ("schedule", JValue.vBool true)
      , ("socialSharing", JValue.vBool false)
      , ("downloadCalendar", JValue.vBool false) ])
  , ("email", JValue.vObj
      [ ("serviceUrl", JValue.vStr "https://formspree.io/f/your-form-id")
      , ("provider", JValue.vStr "formspree") ])
  , ("gallery", JValue.vObj [("images", JValue.vArr [])])
  , ("schedule", JValue.vArr [])
  , ("rsvp", JValue.vObj [("enabled", JValue.vBool true), ("fields", JValue.vArr [])])
  , ("contact", JValue.vObj [("methods", JValue.vArr [])]) ]

/-- A user configuration document containing only one field,
`{event: {title: "X"}}`. -/
def userTitleX : List (String × JValue) :=
  [("event", JValue.vObj [("title", JValue.vStr "X")])]

/-! Router (`Router` in the source).  The DOM state the claims observe is
the set of `.page-section` regions and their visibility; `navigate` marks a
region visible by adding the `active` class and setting
`aria-hidden="false"`, and hides it by the reverse, always both together, so
a single boolean per region is a faithful rendering.  The animation hooks
(`animateOut`/`animateIn`) only touch inline transform/opacity styles and
cannot throw, so they do not appear in the observed state. -/

/-- One entry of `Router.history`, as written by `addToHistory`. -/
structure HistoryEntry where
  fromSec : String
  toSec : String
  tstamp : Int
deriving DecidableEq, Repr

/-- State of the router together with the pieces of browser state it
drives: the `.page-section` regions (id and visibility), the states pushed
via `history.pushState`, and the current location hash. -/
structure RouterState where
  routes : List String
  currentSection : String
  history : List HistoryEntry
  maxHistory : Nat
  pageSections : List (String × Bool)
  pushedStates : List String
  locationHash : String

/-- The five fixed sections `registerDefaultRoutes` registers. -/
def defaultRoutes : List String := ["home", "details", "gallery", "rsvp", "contact"]

/-- Embedding of `document.getElementById(target)` plus show: marks the
first region carrying the target id visible (ids are unique in a well-formed
document, so "first" is "the"). -/
def setFirstVisible : List (String × Bool) → String → List (String × Bool)
  | [], _ => []
  | (i, b) :: rest, target =>
      if i = target then (i, true) :: rest
      else (i, b) :: setFirstVisible rest target

/-- Embedding of `showSection`: hide every `.page-section` region, then show
the region whose id is the target section (if the document has one). -/
def showSection (secs : List (String × Bool)) (target : String) : List (String × Bool) :=
  setFirstVisible (secs.map fun p => (p.1, false)) target

/-- Embedding of `updateURL`: push a history state and move the location
hash, unless the hash already points at the target. -/
def updateURL (st : RouterState) (sec : String) : RouterState :=
  let url := if sec = "home" then "#" else "#" ++ sec
  if st.locationHash ≠ url then
    { st with pushedStates := st.pushedStates ++ [sec], locationHash := url }
  else st

/-- Embedding of `addToHistory`: append a (from, to, timestamp) record and
drop the oldest record when over capacity. -/
def addToHistory (st : RouterState) (f t : String) (now : Int) : RouterState :=
  let h := st.history ++ [{ fromSec := f, toSec := t, tstamp := now }]
  { st with history := if h.length > st.maxHistory then h.drop 1 else h }

/-- Embedding of `navigate(section, updateHistory)`.  Unknown sections fail
fast; otherwise the current section is updated, the URL pushed (only when
`updateHistory` holds), the target region shown, and a history record
appended (only when `updateHistory` holds).  The bus events, page title and
nav-link classes the code also touches are not part of the observed state;
the animation hooks cannot throw, so the catch branch is unreachable. -/
def navigate (st : RouterState) (sec : String) (updateHistory : Bool) (now : Int) :
    Bool × RouterState :=
  if sec ∈ st.routes then
    let fromSection := st.currentSection
    let st1 := { st with currentSection := sec }
    let st2 := if updateHistory then updateURL st1 sec else st1
    let st3 := { st2 with pageSections := showSection st2.pageSections sec }
    let st4 := if updateHistory then addToHistory st3 fromSection sec now else st3
    (true, st4)
  else (false, st)

/-- Embedding of `goBack()`: with two or more history records, re-navigate
(without pushing history) to the `from` section of the second-most-recent
record and drop the last two records; with fewer, navigate home unless
already there. -/
def goBack (st : RouterState) (now : Int) : Bool × RouterState :=
  if h : st.history.length > 1 then
    let previous := st.history.get ⟨st.history.length - 2, by omega⟩
    let st2 := (navigate st previous.fromSec false now).2
    (true, { st2 with history := st2.history.take (st2.history.length - 2) })
  else if st.currentSection ≠ "home" then
    (true, (navigate st "home" true now).2)
  else (false, st)

/-! Event bus: the synchronous path of `EventBus.emit`, and `on`. -/

/-- A registered listener callback: receives the event data and either
returns a value or throws. -/
def Callback : Type := JValue → Except JValue JValue

/-- One element of the `results` array `emit` builds: success with a result
or failure with the caught error. -/
inductive EmitOutcome where
  | succeeded : JValue → EmitOutcome
  | failed : JValue → EmitOutcome

/-- The try/catch around one listener call in the synchronous loop of
`emit`. -/
def runListener (cb : Callback) (data : JValue) : EmitOutcome :=
  match cb data with
  | Except.ok r => EmitOutcome.succeeded r
  | Except.error e => EmitOutcome.failed e

/-- Embedding of the synchronous path of `emit(eventType, data)`: no
registered listener array means an immediate empty result; otherwise every
listener is called in order inside its own try/catch and its outcome pushed
onto the result array. -/
def emitSync (events : List (String × List Callback)) (eventType : String) (data : JValue) :
    List EmitOutcome :=
  match lookupAssoc events eventType with
  | none => []
  | some listeners => listeners.foldl (fun results cb => results ++ [runListener cb data]) []

/-- Embedding of `on(eventType, callback)` as far as the listener registry
is concerned: create the array on first use, then push, so delivery order is
registration order. -/
def onBus (events : List (String × List Callback)) (eventType : String) (cb : Callback) :
    List (String × List Callback) :=
  match lookupAssoc events eventType with
  | none => setAssoc events eventType [cb]
  | some listeners => setAssoc events eventType (listeners ++ [cb])

/-! Storage service (`StorageService`).  The backing `localStorage` is an
association list from full keys to raw entries; a raw entry either
round-trips through JSON as the record `setItem` writes, or is a corrupt
blob on which `JSON.parse` throws. -/

/-- The record `setItem` serialises: value, write timestamp, optional expiry
and a version tag. -/
structure StoredData where
  value : JValue
  timestamp : Int
  expires : Option Int
  version : String

/-- A raw `localStorage` value under the app key space. -/
inductive RawEntry where
  | parsed : StoredData → RawEntry
  | corrupt : String → RawEntry

/-- State of the storage wrapper: availability probe result plus the backing
store. -/
structure StorageState where
  available : Bool
  entries : List (String × RawEntry)

/-- The fixed key namespace of the app inside `localStorage`. -/
def storageKeyHead : String := "invitation_app_"

/-- Options bag accepted by `setItem`. -/
structure SetOptions where
  expires : Option Int
  version : Option String

/-- Deletion from the backing store (`localStorage.removeItem`); keys are
unique, so dropping every binding of the key is the map deletion. -/
def eraseAssoc {α : Type} (l : List (String × α)) (key : String) : List (String × α) :=
  l.filter fun p => !(p.1 == key)

/-- Embedding of `setItem(key, value, options)`: prepends the app key
namespace and stores the JSON record; `options.expires || null` and
`options.version || '1.0'` are JS truthiness tests, so an expiry of 0 and an
empty-string version are replaced by their defaults. -/
def setItem (st : StorageState) (key : String) (value : JValue) (opts : SetOptions) (now : Int) :
    Bool × StorageState :=
  if st.available then
    let data : StoredData :=
      { value := value
        timestamp := now
        expires :=
          match opts.expires with
          | some e => if e = 0 then none else some e
          | none => none
        version :=
          match opts.version with
          | some v => if v = "" then "1.0" else v
          | none => "1.0" }
    (true, { st with entries := setAssoc st.entries (storageKeyHead ++ key) (RawEntry.parsed data) })
  else (false, st)

/-- Embedding of `removeItem(key)`. -/
def removeItem (st : StorageState) (key : String) : Bool × StorageState :=
  if st.available then
    (true, { st with entries := eraseAssoc st.entries (storageKeyHead ++ key) })
  else (false, st)

/-- Embedding of `getItem(key, defaultValue)`: a missing key or a payload
`JSON.parse` rejects yields the default; a truthy expiry in the past removes
the entry and yields the default; otherwise the stored value is returned. -/
def getItem (st : StorageState) (key : String) (defaultValue : JValue) (now : Int) :
    JValue × StorageState :=
  if st.available then
    match lookupAssoc st.entries (storageKeyHead ++ key) with
    | none => (defaultValue, st)
    | some (RawEntry.corrupt _) => (defaultValue, st)
    | some (RawEntry.parsed d) =>
        match d.expires with
        | some e =>
            if e ≠ 0 ∧ now > e then (defaultValue, (removeItem st key).2)
            else (d.value, st)
        | none => (d.value, st)
  else (defaultValue, st)

/-- The 90-day cutoff used by `cleanupOldData`, in milliseconds. -/
def ninetyDaysMs : Int := 90 * 24 * 60 * 60 * 1000

/-- Truthiness of the raw payload string the cleanup loop reads back
(the JS guard `const stored = localStorage.getItem(key); if (stored)`): the
JSON record `setItem` writes is never the empty string, so only a corrupt
empty blob is falsy — such an entry is skipped by the loop body entirely. -/
def rawTruthy : RawEntry → Bool
  | RawEntry.parsed _ => true
  | RawEntry.corrupt s => !(s == "")

/-- Removal test of the try/catch body of `cleanupOldData` for one (truthy)
entry: payloads on which `JSON.parse` throws go, and parsed payloads go when
their (truthy) expiry has passed or their (truthy) timestamp is older than
the 90-day cutoff. -/
def staleOrCorrupt (now : Int) : RawEntry → Bool
  | RawEntry.corrupt _ => true
  | RawEntry.parsed d =>
      (match d.expires with
       | some e => decide (e ≠ 0 ∧ now > e)
       | none => false)
      || decide (d.timestamp ≠ 0 ∧ d.timestamp < now - ninetyDaysMs)

/-- Embedding of `cleanupOldData()`: scan every key, and delete those that
live under the app key namespace, hold a truthy (non-empty) payload, and
fail the retention test of the loop body. -/
def cleanupOldData (st : StorageState) (now : Int) : StorageState :=
  if st.available then
    { st with entries := st.entries.filter fun p =>
        !(strStarts p.1 storageKeyHead && rawTruthy p.2 && staleOrCorrupt now p.2) }
  else st

/-- Embedding of `StorageService.init()`: the only state-relevant action is
the cleanup pass. -/
def initStorage (st : StorageState) (now : Int) : StorageState :=
  cleanupOldData st now

/-! Concrete sample states used by the witnesses below. -/

/-- A listener that succeeds, echoing the event data. -/
def cbOk : Callback := fun d => Except.ok d

/-- A listener that throws. -/
def cbThrow : Callback := fun _ => Except.error (JValue.vStr "boom")

/-- A listener that succeeds with null. -/
def cbNull : Callback := fun _ => Except.ok JValue.vNull

/-- Three listeners in registration order, the middle one failing. -/
def sampleListeners : List Callback := [cbOk, cbThrow, cbNull]

/-- A bus registry carrying the three sample listeners. -/
def sampleBus : List (String × List Callback) := [("form:submit", sampleListeners)]

/-- A freshly initialised router over the five default routes, with all five
page regions in the document and the home region visible. -/
def sampleRouter : RouterState :=
  { routes := defaultRoutes
    currentSection := "home"
    history := []
    maxHistory := 50
    pageSections :=
      [("home", true), ("details", false), ("gallery", false), ("rsvp", false), ("contact", false)]
    pushedStates := []
    locationHash := "" }

/-- A router mid-session: two recorded navigations, currently on the rsvp
section. -/
def backRouter : RouterState :=
  { routes := defaultRoutes
    currentSection := "rsvp"
    history :=
      [ { fromSec := "home", toSec := "details", tstamp := 1 }
      , { fromSec := "details", toSec := "rsvp", tstamp := 2 } ]
    maxHistory := 50
    pageSections :=
      [("home", false), ("details", false), ("gallery", false), ("rsvp", true), ("contact", false)]
    pushedStates := ["details", "rsvp"]
    locationHash := "#rsvp" }

/-- An available storage wrapper over an empty backing store. -/
def emptyStore : StorageState := { available := true, entries := [] }

/-- The store obtained by writing one value with an expiry of 0 (which JS
truthiness turns into no expiry at all). -/
def zeroExpiryStore : StorageState :=
  (setItem emptyStore "k" (JValue.vStr "v") { expires := some 0, version := none } 100).2

/-- A timestamp comfortably past the 90-day cutoff. -/
def now99 : Int := ninetyDaysMs + 50

/-- The parsed payload of a fresh entry. -/
def freshData : StoredData :=
  { value := JValue.vStr "a", timestamp := 100, expires := none, version := "1.0" }

/-- A backing store holding a fresh prefixed entry, a stale prefixed entry,
a corrupt prefixed entry and a stale entry outside the app key space. -/
def mixedStore : StorageState :=
  { available := true
    entries :=
      [ (storageKeyHead ++ "fresh", RawEntry.parsed freshData)
      , (storageKeyHead ++ "old", RawEntry.parsed
          { value := JValue.vStr "b", timestamp := 1, expires := none, version := "1.0" })
      , (storageKeyHead ++ "bad", RawEntry.corrupt "xx")
      , ("other_old", RawEntry.parsed
          { value := JValue.vStr "c", timestamp := 1, expires := none, version := "1.0" }) ] }

/-- A backing store holding one prefixed entry whose recorded timestamp is
the (falsy) number 0. -/
def zeroTsStore : StorageState :=
  { available := true
    entries :=
      [ (storageKeyHead ++ "z", RawEntry.parsed
          { value := JValue.vNull, timestamp := 0, expires := none, version := "1.0" }) ] }

/-- A backing store holding one prefixed entry whose raw payload is the
(falsy) empty string, which `JSON.parse` would reject. -/
def emptyPayloadStore : StorageState :=
  { available := true
    entries := [(storageKeyHead ++ "e", RawEntry.corrupt "")] }

/-! Association-list lemmas shared by the merge, bus and storage proofs. -/

theorem lookupAssoc_setAssoc_self {α : Type} (l : List (String × α)) (k : String) (v : α) :
    lookupAssoc (setAssoc l k v) k = some v := by
  induction l with
  | nil => simp [setAssoc, lookupAssoc]
  | cons p rest ih =>
      obtain ⟨k0, w⟩ := p
      by_cases h : k0 = k
      · subst h; simp [setAssoc, lookupAssoc]
      · simp [setAssoc, lookupAssoc, h, ih]

theorem lookupAssoc_setAssoc_ne {α : Type} (l : List (String × α)) (k k' : String) (v : α)
    (h : k' ≠ k) : lookupAssoc (setAssoc l k v) k' = lookupAssoc l k' := by
  have h' : ¬(k = k') := fun e => h e.symm
  induction l with
  | nil => simp [setAssoc, lookupAssoc, h']
  | cons p rest ih =>
      obtain ⟨k0, w⟩ := p
      by_cases h0 : k0 = k
      · subst h0; simp [setAssoc, lookupAssoc, h']
      · simp [setAssoc, lookupAssoc, h0, ih]

theorem lookupAssoc_eq_none {α : Type} (l : List (String × α)) (k : String)
    (h : k ∉ l.map Prod.fst) : lookupAssoc l k = none := by
  induction l with
  | nil => simp [lookupAssoc]
  | cons p rest ih =>
      obtain ⟨k0, w⟩ := p
      simp only [List.map_cons, List.mem_cons, not_or] at h
      have h' : ¬(k0 = k) := fun e => h.1 e.symm
      simp [lookupAssoc, h', ih h.2]

theorem lookupAssoc_eraseAssoc {α : Type} (l : List (String × α)) (k : String) :
    lookupAssoc (eraseAssoc l k) k = none := by
  induction l with
  | nil => rfl
  | cons p rest ih =>
      obtain ⟨k0, w⟩ := p
      by_cases h : k0 = k
      · simpa [eraseAssoc, List.filter_cons, h] using ih
      · simpa [eraseAssoc, List.filter_cons, h, lookupAssoc] using ih

/-! Lemmas about the deep merge. -/

theorem deepMerge_nil (target : List (String × JValue)) : deepMerge target [] = target := by
  simp [deepMerge]

theorem deepMerge_cons (target rest : List (String × JValue)) (key : String) (sv : JValue) :
    deepMerge target ((key, sv) :: rest) =
      deepMerge (setAssoc target key (mergeStep target key sv)) rest := by
  simp [deepMerge]

theorem lookup_deepMerge_absent (source : List (String × JValue)) :
    ∀ (target : List (String × JValue)) (k : String), lookupAssoc source k = none →
      lookupAssoc (deepMerge target source) k = lookupAssoc target k := by
  induction source with
  | nil => intro target k _; simp [deepMerge_nil]
  | cons p rest ih =>
      intro target k h
      obtain ⟨key, sv⟩ := p
      have hk : ¬(key = k) := by
        intro e
        simp [lookupAssoc, e] at h
      have hrest : lookupAssoc rest k = none := by
        simpa [lookupAssoc, hk] using h
      rw [deepMerge_cons, ih _ _ hrest, lookupAssoc_setAssoc_ne _ _ _ _ (fun e => hk e.symm)]

theorem lookup_deepMerge_obj (source : List (String × JValue)) :
    ∀ (target : List (String × JValue)) (k : String) (sf tf : List (String × JValue)),
      (source.map Prod.fst).Nodup →
      lookupAssoc source k = some (JValue.vObj sf) →
      lookupAssoc target k = some (JValue.vObj tf) →
      lookupAssoc (deepMerge target source) k = some (JValue.vObj (deepMerge tf sf)) := by
  induction source with
  | nil => intro _ _ _ _ _ h _; simp [lookupAssoc] at h
  | cons p rest ih =>
      intro target k sf tf hnd hs ht
      obtain ⟨key, sv⟩ := p
      simp only [List.map_cons, List.nodup_cons] at hnd
      by_cases hk : key = k
      · subst hk
        have hsv : sv = JValue.vObj sf := by simpa [lookupAssoc] using hs
        subst hsv
        have hrest : lookupAssoc rest key = none := lookupAssoc_eq_none _ _ hnd.1
        rw [deepMerge_cons, lookup_deepMerge_absent rest _ _ hrest]
        have hstep : mergeStep target key (JValue.vObj sf) = JValue.vObj (deepMerge tf sf) := by
          simp [mergeStep, ht]
        rw [hstep, lookupAssoc_setAssoc_self]
      · have hs' : lookupAssoc rest k = some (JValue.vObj sf) := by
          simpa [lookupAssoc, hk] using hs
        have ht' : lookupAssoc (setAssoc target key (mergeStep target key sv)) k =
            some (JValue.vObj tf) := by
          rw [lookupAssoc_setAssoc_ne _ _ _ _ (fun e => hk e.symm)]; exact ht
        rw [deepMerge_cons]
        exact ih _ _ _ _ hnd.2 hs' ht'

theorem lookup_deepMerge_replace (source : List (String × JValue)) :
    ∀ (target : List (String × JValue)) (k : String) (sv : JValue),
      (source.map Prod.fst).Nodup →
      lookupAssoc source k = some sv →
      (∀ sf tf, ¬(sv = JValue.vObj sf ∧ lookupAssoc target k = some (JValue.vObj tf))) →
      lookupAssoc (deepMerge target source) k = some sv := by
  induction source with
  | nil => intro _ _ _ _ h _; simp [lookupAssoc] at h
  | cons p rest ih =>
      intro target k sv hnd hs hnb
      obtain ⟨key, w⟩ := p
      simp only [List.map_cons, List.nodup_cons] at hnd
      by_cases hk : key = k
      · subst hk
        have hw : w = sv := by simpa [lookupAssoc] using hs
        subst hw
        have hrest : lookupAssoc rest key = none := lookupAssoc_eq_none _ _ hnd.1
        rw [deepMerge_cons, lookup_deepMerge_absent rest _ _ hrest]
        have hstep : mergeStep target key w = w := by
          cases w with
          | vObj sf =>
              rcases hlt : lookupAssoc target key with _ | tv
              · simp [mergeStep, hlt]
              · cases tv with
                | vObj tf => exact absurd ⟨rfl, hlt⟩ (hnb sf tf)
                | vNull => simp [mergeStep, hlt]
                | vBool b => simp [mergeStep, hlt]
                | vNum n => simp [mergeStep, hlt]
                | vStr s => simp [mergeStep, hlt]
                | vArr a => simp [mergeStep, hlt]
          | vNull => simp [mergeStep]
          | vBool b => simp [mergeStep]
          | vNum n => simp [mergeStep]
          | vStr s => simp [mergeStep]
          | vArr a => simp [mergeStep]
        rw [hstep, lookupAssoc_setAssoc_self]
      · have hs' : lookupAssoc rest k = some sv := by
          simpa [lookupAssoc, hk] using hs
        have hnb' : ∀ sf tf, ¬(sv = JValue.vObj sf ∧
            lookupAssoc (setAssoc target key (mergeStep target key w)) k =
              some (JValue.vObj tf)) := by
          intro sf tf hc
          refine hnb sf tf ⟨hc.1, ?_⟩
          rw [← lookupAssoc_setAssoc_ne target key k (mergeStep target key w) (fun e => hk e.symm)]
          exact hc.2
        rw [deepMerge_cons]
        exact ih _ _ _ hnd.2 hs' hnb'

/-- Claim C1: the deep merge combines the user document over the defaults
key by key — a key absent from the user document keeps its default value;
where both sides hold non-array plain objects the merge recurses; otherwise
the user value replaces the default wholesale (arrays and scalars included);
and, concretely, merging a user configuration containing only
`{event: {title: "X"}}` over the defaults yields an object equal to the
defaults everywhere except `event.title`, which becomes "X". -/
theorem C1_deep_merge_spec :
    (∀ (target source : List (String × JValue)) (k : String),
        lookupAssoc source k = none →
        lookupAssoc (deepMerge target source) k = lookupAssoc target k)
  ∧ (∀ (target source : List (String × JValue)) (k : String)
        (sf tf : List (String × JValue)),
        (source.map Prod.fst).Nodup →
        lookupAssoc source k = some (JValue.vObj sf) →
        lookupAssoc target k = some (JValue.vObj tf) →
        lookupAssoc (deepMerge target source) k = some (JValue.vObj (deepMerge tf sf)))
  ∧ (∀ (target source : List (String × JValue)) (k : String) (sv : JValue),
        (source.map Prod.fst).Nodup →
        lookupAssoc source k = some sv →
        (∀ sf tf, ¬(sv = JValue.vObj sf ∧ lookupAssoc target k = some (JValue.vObj tf))) →
        lookupAssoc (deepMerge target source) k = some sv)
  ∧ (∀ k, k ≠ "event" →
        lookupAssoc (deepMerge defaultConfig userTitleX) k = lookupAssoc defaultConfig k)
  ∧ (∃ ev dev,
        lookupAssoc (deepMerge defaultConfig userTitleX) "event" = some (JValue.vObj ev) ∧
        lookupAssoc defaultConfig "event" = some (JValue.vObj dev) ∧
        lookupAssoc ev "title" = some (JValue.vStr "X") ∧
        (∀ k2, k2 ≠ "title" → lookupAssoc ev k2 = lookupAssoc dev k2)) := by
  refine ⟨fun t s k h => lookup_deepMerge_absent s t k h,
          fun t s k sf tf hnd hs ht => lookup_deepMerge_obj s t k sf tf hnd hs ht,
          fun t s k sv hnd hs hnb => lookup_deepMerge_replace s t k sv hnd hs hnb,
          ?_, ?_⟩
  · intro k hk
    have h' : ¬("event" = k) := fun e => hk e.symm
    have h0 : lookupAssoc userTitleX k = none := by
      simp [userTitleX, lookupAssoc, h']
    exact lookup_deepMerge_absent userTitleX defaultConfig k h0
  · refine ⟨deepMerge defaultEventFields [("title", JValue.vStr "X")], defaultEventFields,
      ?_, rfl, ?_, ?_⟩
    · exact lookup_deepMerge_obj userTitleX defaultConfig "event"
        [("title", JValue.vStr "X")] defaultEventFields (by decide) rfl rfl
    · refine lookup_deepMerge_replace [("title", JValue.vStr "X")] defaultEventFields
        "title" (JValue.vStr "X") (by decide) rfl ?_
      intro sf tf hc
      exact JValue.noConfusion hc.1
    · intro k2 hk2
      have h' : ¬("title" = k2) := fun e => hk2 e.symm
      have h0 : lookupAssoc [("title", JValue.vStr "X")] k2 = none := by
        simp [lookupAssoc, h']
      exact lookup_deepMerge_absent [("title", JValue.vStr "X")] defaultEventFields k2 h0

/-- Witness for C1: the absent-key clause applied at a concrete merge. -/
theorem C1_deep_merge_spec_witness :
    lookupAssoc (deepMerge [("a", JValue.vNum 1)] [("b", JValue.vNum 2)]) "a" =
      some (JValue.vNum 1) := by
  have h := C1_deep_merge_spec.1 [("a", JValue.vNum 1)] [("b", JValue.vNum 2)] "a" rfl
  rw [h]
  rfl

/-! Lemmas about `get` and its graceful fallbacks. -/

theorem getCfg_miss (config : Option JValue) (path : String) (fb : JValue)
    (h : missGet config path) : getCfg config path fb = gracefulFallback path fb := by
  cases config with
  | none => rfl
  | some cfg =>
      rcases h with h | h
      · simp only [rawGet, Option.some_bind] at h
        simp [getCfg, h]
      · simp only [rawGet, Option.some_bind] at h
        simp [getCfg, h, isNull]

theorem gracefulFallback_null_isStr (path : String) :
    ∃ s, gracefulFallback path JValue.vNull = JValue.vStr s ∧ s ≠ "" := by
  unfold gracefulFallback
  rw [if_neg (by decide)]
  repeat' split
  all_goals exact ⟨_, rfl, by decide⟩

/-- Claim C2 (amended): on a missed lookup `get` returns the caller's
fallback when a non-null one is provided and otherwise a non-empty
placeholder string picked by keyword matching on the lowercased path; a path
containing "email" yields the placeholder email address provided it contains
none of the keywords checked earlier ("title", "subtitle", "date",
"location", "name"); and `get("event.title")` on an empty configuration
(whether unloaded or an empty document) returns the non-empty title
placeholder. -/
theorem C2_get_fallbacks :
    (∀ (config : Option JValue) (path : String) (fb : JValue),
        missGet config path → isNull fb = false → getCfg config path fb = fb)
  ∧ (∀ (config : Option JValue) (path : String),
        missGet config path →
        ∃ s, getCfg config path JValue.vNull = JValue.vStr s ∧ s ≠ "")
  ∧ (∀ (config : Option JValue) (path : String),
        missGet config path →
        strContains (lowerStr path) "email" = true →
        strContains (lowerStr path) "title" = false →
        strContains (lowerStr path) "subtitle" = false →
        strContains (lowerStr path) "date" = false →
        strContains (lowerStr path) "location" = false →
        strContains (lowerStr path) "name" = false →
        getCfg config path JValue.vNull = JValue.vStr "email@example.com")
  ∧ (getCfg none "event.title" JValue.vNull =
        JValue.vStr "Event Title - Please Update Config"
      ∧ getCfg (some (JValue.vObj [])) "event.title" JValue.vNull =
        JValue.vStr "Event Title - Please Update Config"
      ∧ "Event Title - Please Update Config" ≠ "") := by
  refine ⟨?_, ?_, ?_, rfl, rfl, by decide⟩
  · intro config path fb h hfb
    rw [getCfg_miss config path fb h]
    unfold gracefulFallback
    rw [if_pos hfb]
  · intro config path h
    rw [getCfg_miss config path JValue.vNull h]
    exact gracefulFallback_null_isStr path
  · intro config path h hem hti hsu hda hlo hna
    rw [getCfg_miss config path JValue.vNull h]
    unfold gracefulFallback
    simp [isNull, hem, hti, hsu, hda, hlo, hna]

/-- Counterexample to C2 as stated: the path "name_email" contains "email",
but on a missed lookup `get` returns the "name" placeholder (the "name"
keyword is checked first), not the placeholder email address. -/
theorem C2_email_counterexample :
    strContains (lowerStr "name_email") "email" = true ∧
    missGet none "name_email" ∧
    getCfg none "name_email" JValue.vNull = JValue.vStr "Name TBD" ∧
    JValue.vStr "Name TBD" ≠ JValue.vStr "email@example.com" := by
  refine ⟨by decide, Or.inl rfl, rfl, ?_⟩
  intro hc
  exact absurd (JValue.vStr.inj hc) (by decide)

/-- Witness for C2: the email clause applied at the path "organizer.email"
over an unloaded configuration. -/
theorem C2_get_fallbacks_witness :
    getCfg none "organizer.email" JValue.vNull = JValue.vStr "email@example.com" :=
  C2_get_fallbacks.2.2.1 none "organizer.email" (Or.inl rfl)
    (by decide) (by decide) (by decide) (by decide) (by decide) (by decide)

/-- Claim C9: a null fallback is indistinguishable from no fallback — on a
missed lookup the caller still receives a placeholder string, never null —
while every non-null fallback (the empty string, 0 and false included) is
returned verbatim. -/
theorem C9_null_fallback (config : Option JValue) (path : String) (h : missGet config path) :
    (∃ s, getCfg config path JValue.vNull = JValue.vStr s) ∧
    getCfg config path JValue.vNull ≠ JValue.vNull ∧
    (∀ fb : JValue, isNull fb = false → getCfg config path fb = fb) ∧
    getCfg config path (JValue.vStr "") = JValue.vStr "" ∧
    getCfg config path (JValue.vNum 0) = JValue.vNum 0 ∧
    getCfg config path (JValue.vBool false) = JValue.vBool false := by
  have hfb : ∀ fb : JValue, isNull fb = false → getCfg config path fb = fb := by
    intro fb hfb
    rw [getCfg_miss config path fb h]
    unfold gracefulFallback
    rw [if_pos hfb]
  have hplace : ∃ s, getCfg config path JValue.vNull = JValue.vStr s ∧ s ≠ "" := by
    rw [getCfg_miss config path JValue.vNull h]
    exact gracefulFallback_null_isStr path
  obtain ⟨s, hs, _⟩ := hplace
  refine ⟨⟨s, hs⟩, ?_, hfb, hfb _ rfl, hfb _ rfl, hfb _ rfl⟩
  rw [hs]
  exact fun hc => JValue.noConfusion hc

/-- Witness for C9: a non-null fallback comes back verbatim on a missed
path. -/
theorem C9_null_fallback_witness :
    getCfg none "missing.path" (JValue.vStr "fb") = JValue.vStr "fb" :=
  (C9_null_fallback none "missing.path" (Or.inl rfl)).2.2.1 (JValue.vStr "fb") rfl

/-! Router lemmas. -/

theorem updateURL_currentSection (st : RouterState) (sec : String) :
    (updateURL st sec).currentSection = st.currentSection := by
  simp only [updateURL]
  split <;> split <;> rfl

theorem updateURL_pageSections (st : RouterState) (sec : String) :
    (updateURL st sec).pageSections = st.pageSections := by
  simp only [updateURL]
  split <;> split <;> rfl

theorem updateURL_history (st : RouterState) (sec : String) :
    (updateURL st sec).history = st.history := by
  simp only [updateURL]
  split <;> split <;> rfl

theorem navigate_fst (st : RouterState) (sec : String) (u : Bool) (now : Int)
    (h : sec ∈ st.routes) : (navigate st sec u now).1 = true := by
  simp [navigate, h]

theorem navigate_currentSection (st : RouterState) (sec : String) (u : Bool) (now : Int)
    (h : sec ∈ st.routes) : (navigate st sec u now).2.currentSection = sec := by
  cases u <;> simp [navigate, h, addToHistory, updateURL_currentSection]

theorem navigate_pageSections (st : RouterState) (sec : String) (u : Bool) (now : Int)
    (h : sec ∈ st.routes) :
    (navigate st sec u now).2.pageSections = showSection st.pageSections sec := by
  cases u <;> simp [navigate, h, addToHistory, updateURL_pageSections]

theorem navigate_history_keep (st : RouterState) (sec : String) (now : Int) :
    (navigate st sec false now).2.history = st.history := by
  by_cases h : sec ∈ st.routes <;> simp [navigate, h]

theorem navigate_pushed_keep (st : RouterState) (sec : String) (now : Int) :
    (navigate st sec false now).2.pushedStates = st.pushedStates := by
  by_cases h : sec ∈ st.routes <;> simp [navigate, h]

theorem filter_snd_eq_nil (l : List (String × Bool)) (hall : ∀ p ∈ l, p.2 = false) :
    l.filter (fun p => p.2) = [] := by
  induction l with
  | nil => rfl
  | cons p rest ih =>
      have hp := hall p (List.mem_cons_self _ _)
      simp [List.filter_cons, hp, ih fun q hq => hall q (List.mem_cons_of_mem _ hq)]

theorem setFirstVisible_filter (l : List (String × Bool)) (target : String)
    (hall : ∀ p ∈ l, p.2 = false) (hmem : target ∈ l.map Prod.fst) :
    (setFirstVisible l target).filter (fun p => p.2) = [(target, true)] := by
  induction l with
  | nil => simp at hmem
  | cons p rest ih =>
      obtain ⟨i, b⟩ := p
      have hb : b = false := hall (i, b) (List.mem_cons_self _ _)
      subst hb
      by_cases hi : i = target
      · subst hi
        simp only [setFirstVisible, if_pos rfl, List.filter_cons]
        simp [filter_snd_eq_nil rest fun q hq => hall q (List.mem_cons_of_mem _ hq)]
      · have hmem' : target ∈ rest.map Prod.fst := by
          rcases List.mem_cons.mp hmem with h | h
          · exact absurd h.symm hi
          · exact h
        simp only [setFirstVisible, if_neg hi, List.filter_cons]
        simp [ih (fun q hq => hall q (List.mem_cons_of_mem _ hq)) hmem']

theorem showSection_filter (secs : List (String × Bool)) (target : String)
    (hmem : target ∈ secs.map Prod.fst) :
    (showSection secs target).filter (fun p => p.2) = [(target, true)] := by
  apply setFirstVisible_filter
  · intro p hp
    obtain ⟨q, _, rfl⟩ := List.mem_map.mp hp
    rfl
  · rw [List.map_map]
    simpa [Function.comp] using hmem

theorem setFirstVisible_hidden (l : List (String × Bool)) (target : String)
    (hall : ∀ p ∈ l, p.2 = false) :
    ∀ p ∈ setFirstVisible l target, p.1 ≠ target → p.2 = false := by
  induction l with
  | nil => intro p hp hne; simp [setFirstVisible] at hp
  | cons q rest ih =>
      obtain ⟨i, b⟩ := q
      intro p hp hne
      by_cases hi : i = target
      · simp only [setFirstVisible, if_pos hi] at hp
        rcases List.mem_cons.mp hp with h | h
        · rw [h] at hne ⊢
          exact absurd hi hne
        · exact hall p (List.mem_cons_of_mem _ h)
      · simp only [setFirstVisible, if_neg hi] at hp
        rcases List.mem_cons.mp hp with h | h
        · rw [h]
          exact hall (i, b) (List.mem_cons_self _ _)
        · exact ih (fun r hr => hall r (List.mem_cons_of_mem _ hr)) p h hne

theorem showSection_hidden (secs : List (String × Bool)) (target : String) :
    ∀ p ∈ showSection secs target, p.1 ≠ target → p.2 = false := by
  apply setFirstVisible_hidden
  intro p hp
  obtain ⟨q, _, rfl⟩ := List.mem_map.mp hp
  rfl

/-- Claim C3: for every registered section whose region exists in the
document, a successful `navigate` leaves exactly one section region marked
visible — the target — and every other section region hidden. -/
theorem C3_navigate_exactly_one_visible (st : RouterState) (sec : String) (u : Bool) (now : Int)
    (hroute : sec ∈ st.routes) (hdom : sec ∈ st.pageSections.map Prod.fst) :
    (navigate st sec u now).1 = true ∧
    ((navigate st sec u now).2.pageSections.filter fun p => p.2) = [(sec, true)] ∧
    (∀ p ∈ (navigate st sec u now).2.pageSections, p.1 ≠ sec → p.2 = false) := by
  refine ⟨navigate_fst st sec u now hroute, ?_, ?_⟩
  · rw [navigate_pageSections st sec u now hroute]
    exact showSection_filter st.pageSections sec hdom
  · rw [navigate_pageSections st sec u now hroute]
    exact showSection_hidden st.pageSections sec

/-- Witness for C3: navigating the sample router to the rsvp section. -/
theorem C3_navigate_exactly_one_visible_witness :
    (navigate sampleRouter "rsvp" true 5).1 = true ∧
    ((navigate sampleRouter "rsvp" true 5).2.pageSections.filter fun p => p.2) =
      [("rsvp", true)] ∧
    (∀ p ∈ (navigate sampleRouter "rsvp" true 5).2.pageSections, p.1 ≠ "rsvp" → p.2 = false) :=
  C3_navigate_exactly_one_visible sampleRouter "rsvp" true 5 (by decide) (by decide)

/-- Claim C4: navigating to an unregistered section returns false and leaves
the current section, the navigation history and the visibility of every
section region unchanged. -/
theorem C4_navigate_unknown (st : RouterState) (sec : String) (u : Bool) (now : Int)
    (h : sec ∉ st.routes) :
    (navigate st sec u now).1 = false ∧
    (navigate st sec u now).2.currentSection = st.currentSection ∧
    (navigate st sec u now).2.history = st.history ∧
    (navigate st sec u now).2.pageSections = st.pageSections := by
  simp [navigate, h]

/-- Witness for C4: the sample router refuses an unregistered section. -/
theorem C4_navigate_unknown_witness :
    (navigate sampleRouter "admin" true 0).1 = false ∧
    (navigate sampleRouter "admin" true 0).2.currentSection = sampleRouter.currentSection ∧
    (navigate sampleRouter "admin" true 0).2.history = sampleRouter.history ∧
    (navigate sampleRouter "admin" true 0).2.pageSections = sampleRouter.pageSections :=
  C4_navigate_unknown sampleRouter "admin" true 0 (by decide)

/-- Claim C6: with at least two history records, `goBack` re-navigates —
without pushing browser history — to the `from` section recorded in the
entry before the current one, removes the two most recent records and
returns true; with fewer records it navigates home and returns true, unless
the current section is already home, in which case it returns false and
changes nothing. -/
theorem C6_goBack_spec :
    (∀ (st : RouterState) (now : Int) (e : HistoryEntry),
        2 ≤ st.history.length →
        st.history[st.history.length - 2]? = some e →
        e.fromSec ∈ st.routes →
        (goBack st now).1 = true ∧
        (goBack st now).2.currentSection = e.fromSec ∧
        (goBack st now).2.history = st.history.take (st.history.length - 2) ∧
        (goBack st now).2.pushedStates = st.pushedStates)
  ∧ (∀ (st : RouterState) (now : Int),
        st.history.length ≤ 1 → st.currentSection ≠ "home" → "home" ∈ st.routes →
        (goBack st now).1 = true ∧ (goBack st now).2.currentSection = "home")
  ∧ (∀ (st : RouterState) (now : Int),
        st.history.length ≤ 1 → st.currentSection = "home" →
        goBack st now = (false, st)) := by
  refine ⟨?_, ?_, ?_⟩
  · intro st now e hlen hget hr
    have hgt : st.history.length > 1 := by omega
    have hidx : st.history.length - 2 < st.history.length := by omega
    have he : st.history.get ⟨st.history.length - 2, hidx⟩ = e := by
      have h2 : st.history[st.history.length - 2]? =
          some (st.history.get ⟨st.history.length - 2, hidx⟩) := by
        simp [List.getElem?_eq_getElem hidx, List.get_eq_getElem]
      rw [hget] at h2
      exact (Option.some.inj h2).symm
    unfold goBack
    rw [dif_pos hgt]
    simp only [he]
    refine ⟨trivial, ?_, ?_, ?_⟩
    · simpa using navigate_currentSection st e.fromSec false now hr
    · simp [navigate_history_keep]
    · simp [navigate_pushed_keep]
  · intro st now hlen hne hr
    unfold goBack
    rw [dif_neg (by omega), if_pos hne]
    constructor
    · rfl
    · exact navigate_currentSection st "home" true now hr
  · intro st now hlen hcur
    unfold goBack
    rw [dif_neg (by omega), if_neg (not_not_intro hcur)]

/-- Witness for C6: going back on the mid-session sample router. -/
theorem C6_goBack_spec_witness :
    (goBack backRouter 3).1 = true ∧
    (goBack backRouter 3).2.currentSection = "home" ∧
    (goBack backRouter 3).2.history = backRouter.history.take (backRouter.history.length - 2) ∧
    (goBack backRouter 3).2.pushedStates = backRouter.pushedStates :=
  C6_goBack_spec.1 backRouter 3 { fromSec := "home", toSec := "details", tstamp := 1 }
    (by decide) rfl (by decide)

/-! Event-bus lemmas and claim. -/

theorem emit_foldl_eq_map (ls : List Callback) (data : JValue) :
    ∀ acc : List EmitOutcome,
      ls.foldl (fun results cb => results ++ [runListener cb data]) acc =
        acc ++ ls.map (fun cb => runListener cb data) := by
  induction ls with
  | nil => intro acc; simp
  | cons cb rest ih => intro acc; simp [List.foldl_cons, ih]

theorem emitSync_eq_map (events : List (String × List Callback)) (evt : String) (data : JValue)
    (ls : List Callback) (h : lookupAssoc events evt = some ls) :
    emitSync events evt data = ls.map (fun cb => runListener cb data) := by
  simp [emitSync, h, emit_foldl_eq_map]

/-- Claim C5: the synchronous publish path resolves to an empty result array
when the event type has no listener entry; with listeners it produces a
per-listener success/failure result array of the same length, in which the
outcome at position i is the try/catch result of listener i alone (so a
throwing listener cannot block the others); and a newly registered listener
is delivered last, so delivery order is registration order. -/
theorem C5_emit_sync (events : List (String × List Callback)) (evt : String) (data : JValue) :
    (lookupAssoc events evt = none → emitSync events evt data = [])
  ∧ (∀ ls, lookupAssoc events evt = some ls →
      (emitSync events evt data).length = ls.length ∧
      (∀ i (hi : i < ls.length),
        (emitSync events evt data)[i]? = some (runListener (ls.get ⟨i, hi⟩) data)))
  ∧ (∀ cb, emitSync (onBus events evt cb) evt data =
      emitSync events evt data ++ [runListener cb data]) := by
  refine ⟨?_, ?_, ?_⟩
  · intro h
    simp [emitSync, h]
  · intro ls h
    constructor
    · simp [emitSync_eq_map events evt data ls h]
    · intro i hi
      rw [emitSync_eq_map events evt data ls h]
      simp [List.getElem?_map, List.getElem?_eq_getElem hi, List.get_eq_getElem]
  · intro cb
    rcases hl : lookupAssoc events evt with _ | ls
    · have h1 : lookupAssoc (onBus events evt cb) evt = some [cb] := by
        simp [onBus, hl, lookupAssoc_setAssoc_self]
      rw [emitSync_eq_map _ _ _ _ h1]
      simp [emitSync, hl]
    · have h1 : lookupAssoc (onBus events evt cb) evt = some (ls ++ [cb]) := by
        simp [onBus, hl, lookupAssoc_setAssoc_self]
      rw [emitSync_eq_map _ _ _ _ h1, emitSync_eq_map _ _ _ _ hl]
      simp

/-- Witness for C5: three listeners, the middle one throwing — all three are
invoked and the result array has length three, the second entry being the
caught failure. -/
theorem C5_emit_sync_witness :
    (emitSync sampleBus "form:submit" (JValue.vStr "d")).length = sampleListeners.length ∧
    (emitSync sampleBus "form:submit" (JValue.vStr "d"))[1]? =
      some (runListener cbThrow (JValue.vStr "d")) := by
  have h := (C5_emit_sync sampleBus "form:submit" (JValue.vStr "d")).2.1 sampleListeners rfl
  exact ⟨h.1, h.2 1 (by decide)⟩

/-! Storage lemmas and claims. -/

/-- Claim C8 (amended): storing a value with a nonzero expiry timestamp in
the past and reading the same key back returns the caller's default and
removes the stale entry from the backing store.  (A zero expiry is excluded:
`options.expires || null` makes the service store it as "no expiry".) -/
theorem C8_expired_roundtrip (st : StorageState) (key : String) (v fb : JValue)
    (e now1 now2 : Int) (hav : st.available = true) (h0 : e ≠ 0) (hpast : e < now2) :
    (getItem ((setItem st key v { expires := some e, version := none } now1).2) key fb now2).1
      = fb ∧
    lookupAssoc
      ((getItem ((setItem st key v { expires := some e, version := none } now1).2)
        key fb now2).2).entries (storageKeyHead ++ key) = none := by
  have hset : (setItem st key v { expires := some e, version := none } now1).2 =
      { st with entries :=
          setAssoc st.entries (storageKeyHead ++ key) (RawEntry.parsed ⟨v, now1, some e, "1.0"⟩) } := by
    simp [setItem, hav, h0]
  rw [hset]
  constructor
  · simp [getItem, hav, lookupAssoc_setAssoc_self, h0, hpast]
  · simp [getItem, removeItem, hav, lookupAssoc_setAssoc_self, h0, hpast,
      lookupAssoc_eraseAssoc]

/-- Counterexample to C8 as stated: an expiry timestamp of 0 lies in the
past (of any positive clock), but JS truthiness makes `setItem` store it as
"no expiry", so the read returns the stored value and keeps the entry. -/
theorem C8_counterexample :
    (0 : Int) < 200 ∧
    (getItem zeroExpiryStore "k" (JValue.vStr "fb") 200).1 = JValue.vStr "v" ∧
    lookupAssoc ((getItem zeroExpiryStore "k" (JValue.vStr "fb") 200).2).entries
        (storageKeyHead ++ "k") =
      some (RawEntry.parsed
        { value := JValue.vStr "v", timestamp := 100, expires := none, version := "1.0" }) :=
  ⟨by decide, rfl, rfl⟩

/-- Witness for C8: a concrete expired write/read round trip. -/
theorem C8_expired_roundtrip_witness :
    (getItem ((setItem emptyStore "k" (JValue.vStr "v")
        { expires := some 10, version := none } 5).2) "k" (JValue.vStr "fb") 20).1 =
      JValue.vStr "fb" ∧
    lookupAssoc
      ((getItem ((setItem emptyStore "k" (JValue.vStr "v")
          { expires := some 10, version := none } 5).2) "k" (JValue.vStr "fb") 20).2).entries
      (storageKeyHead ++ "k") = none :=
  C8_expired_roundtrip emptyStore "k" (JValue.vStr "v") (JValue.vStr "fb") 10 5 20 rfl
    (by decide) (by decide)

/-- Claim C10 (amended): after the cleanup pass run by init, every surviving
entry under the app key namespace whose raw payload is truthy (non-empty)
parses as JSON, and if its recorded timestamp is nonzero (truthy) it lies
within the 90-day window; non-empty unparseable payloads and truthy-stale
entries are purged, expiry or not.  (A recorded timestamp of exactly 0 is
falsy in JS and escapes the purge, and an empty-string payload is itself
falsy, so the loop skips it before ever calling `JSON.parse`.) -/
theorem C10_cleanup (st : StorageState) (now : Int) (hav : st.available = true) :
    ∀ k e, (k, e) ∈ (initStorage st now).entries → strStarts k storageKeyHead = true →
      (∀ s, s ≠ "" → e ≠ RawEntry.corrupt s) ∧
      (∀ d, e = RawEntry.parsed d → d.timestamp ≠ 0 → now - ninetyDaysMs ≤ d.timestamp) := by
  intro k e hmem hk
  have hent : (initStorage st now).entries = st.entries.filter fun p =>
      !(strStarts p.1 storageKeyHead && rawTruthy p.2 && staleOrCorrupt now p.2) := by
    simp [initStorage, cleanupOldData, hav]
  rw [hent] at hmem
  have hfil := (List.mem_filter.mp hmem).2
  rw [hk] at hfil
  have hclean : rawTruthy e = false ∨ staleOrCorrupt now e = false := by simpa using hfil
  constructor
  · intro s hs0 hs
    rw [hs] at hclean
    rcases hclean with h | h
    · simp [rawTruthy, hs0] at h
    · simp [staleOrCorrupt] at h
  · intro d hd ht0
    rw [hd] at hclean
    rcases hclean with h | h
    · simp [rawTruthy] at h
    · simp only [staleOrCorrupt] at h
      have h3 := (Bool.or_eq_false_iff.mp h).2
      have h4 := of_decide_eq_false h3
      omega

/-- Counterexample to C10 as stated: a prefixed entry recording timestamp 0
— certainly older than the 90-day cutoff — survives the init cleanup
because 0 is falsy in JS, and a prefixed entry whose raw payload is the
empty string — which `JSON.parse` rejects — also survives, because the
cleanup loop's `if (stored)` guard skips falsy payloads. -/
theorem C10_counterexample :
    (0 : Int) < now99 - ninetyDaysMs ∧
    (initStorage zeroTsStore now99).entries = zeroTsStore.entries ∧
    (initStorage emptyPayloadStore now99).entries = emptyPayloadStore.entries :=
  ⟨by decide, rfl, rfl⟩

/-- Witness for C10: the fresh prefixed entry of the mixed store survives
the cleanup and satisfies the retention bound. -/
theorem C10_cleanup_witness :
    (∀ s, s ≠ "" → RawEntry.parsed freshData ≠ RawEntry.corrupt s) ∧
    (∀ d, RawEntry.parsed freshData = RawEntry.parsed d → d.timestamp ≠ 0 →
      now99 - ninetyDaysMs ≤ d.timestamp) := by
  have hmem : (storageKeyHead ++ "fresh", RawEntry.parsed freshData) ∈
      (initStorage mixedStore now99).entries := by
    have h : (initStorage mixedStore now99).entries =
        (storageKeyHead ++ "fresh", RawEntry.parsed freshData) ::
        [("other_old", RawEntry.parsed
          { value := JValue.vStr "c", timestamp := 1, expires := none, version := "1.0" })] := rfl
    rw [h]
    exact List.mem_cons_self _ _
  exact C10_cleanup mixedStore now99 rfl (storageKeyHead ++ "fresh")
    (RawEntry.parsed freshData) hmem (by decide)
